import Mathlib

/-!
Verification of the fair-division core of this repository: the data-model
invariants of `models.py`, the input validation and return policies of
`maxmin_solver.py` and `nash_solver.py`, the restriction handling of the
platform `maxmin.py` solver, and the fairness diagnostics of
`diagnostics.py` and `utils.py`.  Real (float) arithmetic is modelled
exactly over `ℚ`; numpy matrices are modelled as lists of rows where the
checks are order-sensitive, and as functions `Fin n → Fin m → ℚ` for the
diagnostics.
-/

/-- Error cases raised by `AllocationResult.__post_init__` (models.py,
lines 34-49): a negative allocation entry, a good not fully allocated, or
a utilities vector of the wrong shape.  All three surface as `ValueError`
in the source. -/
inductive ModelError where
  | negativeAllocation
  | goodsNotFullyAllocated
  | utilitiesShapeMismatch
deriving DecidableEq

/-- Number of columns of a row-major matrix, i.e. numpy `shape[1]`. -/
def nGoods (a : List (List ℚ)) : Nat := (a.headD []).length

/-- Rectangularity: the lists-of-rows value really is the embedding of a
numpy 2-D array of shape `(a.length, nGoods a)`. -/
abbrev IsMatrix (a : List (List ℚ)) : Prop := ∀ row ∈ a, row.length = nGoods a

/-- Column sum of a row-major matrix, i.e. numpy `a.sum(axis=0)` at column
`j`. -/
def colSum (a : List (List ℚ)) (j : Nat) : ℚ := (a.map (fun row => row.getD j 0)).sum

/-- Scalar case of `np.isclose`/`np.allclose`: `|x - y| ≤ atol + rtol·|y|`.
numpy's default relative tolerance `rtol = 1e-5` stays in force when a call
passes only `atol`. -/
abbrev npIsClose (rtol atol x y : ℚ) : Prop := |x - y| ≤ atol + rtol * |y|

/-- Shallow embedding of `AllocationResult.__post_init__` (models.py, lines
34-49): reject any entry below `-1e-9`; then reject unless every column sum
passes `np.allclose(col_sums, 1.0, atol=1e-6)` (which, with numpy's default
`rtol = 1e-5`, tolerates `|sum - 1| ≤ 1e-6 + 1e-5`); then reject unless the
utilities vector has length `n_agents`.  The checks run unconditionally:
nothing inspects `solver_status`. -/
def allocationResultPostInit (allocation : List (List ℚ)) (utilitiesLen : Nat) :
    Except ModelError Unit :=
  if ∃ row ∈ allocation, ∃ v ∈ row, v < -(1/10^9 : ℚ) then
    .error .negativeAllocation
  else if ¬ ∀ j ∈ List.range (nGoods allocation),
      npIsClose (1/10^5) (1/10^6) (colSum allocation j) 1 then
    .error .goodsNotFullyAllocated
  else if utilitiesLen ≠ allocation.length then
    .error .utilitiesShapeMismatch
  else
    .ok ()

/-- The fields of `AllocationResult` (models.py) used by the claims.  The
metadata dict is modelled by its two relevant entries. -/
structure AllocationResultQ where
  allocation : List (List ℚ)
  utilities : List ℚ
  objective_value : ℚ
  solver_status : String
  metadataError : Option String
  scipyMessage : Option String
deriving DecidableEq

/-- Constructing an `AllocationResult` runs `__post_init__`; construction
succeeds only when the validation does. -/
def mkAllocationResult (allocation : List (List ℚ)) (utilities : List ℚ)
    (objective_value : ℚ) (solver_status : String)
    (metadataError scipyMessage : Option String) :
    Except ModelError AllocationResultQ :=
  (allocationResultPostInit allocation utilities.length).map
    (fun _ => ⟨allocation, utilities, objective_value, solver_status,
               metadataError, scipyMessage⟩)

/-- The three ways `solve_maxmin_allocation` classifies the LP engine status
(maxmin_solver.py, lines 207-212): `OPTIMAL`, `FEASIBLE`, or anything else. -/
inductive LpStatus where
  | lpOptimal
  | lpFeasible
  | lpOther
deriving DecidableEq

/-- Row-wise realized utilities `(allocation * utilities).sum(axis=1)`. -/
def rowDots (x u : List (List ℚ)) : List ℚ :=
  List.zipWith (fun xr ur => (List.zipWith (fun a b => a * b) xr ur).sum) x u

/-- Tail of `solve_maxmin_allocation` (maxmin_solver.py, lines 206-246).  On
`OPTIMAL`/`FEASIBLE` it builds the allocation and realized utilities and
constructs the result; on any other status it constructs an all-zeros
result with `solver_status = "infeasible"` and `metadata["error"]`
populated.  Every branch goes through the validating constructor. -/
def maxminFinalize (status : LpStatus) (utilities : List (List ℚ))
    (xsol : List (List ℚ)) (tsol : ℚ) : Except ModelError AllocationResultQ :=
  match status with
  | .lpOther =>
      mkAllocationResult
        (List.replicate utilities.length (List.replicate (nGoods utilities) 0))
        (List.replicate utilities.length 0) 0 "infeasible"
        (some "No feasible solution found") none
  | .lpOptimal =>
      mkAllocationResult xsol (rowDots xsol utilities) tsol "optimal" none none
  | .lpFeasible =>
      mkAllocationResult xsol (rowDots xsol utilities) tsol "feasible" none none

/-- Tail of `solve_nash_allocation` (nash_solver.py, lines 326-357): the
solver status is `"optimal"` when the engine reports success and
`"feasible"` otherwise; the engine message is stored in
`metadata["scipy_message"]`; the point is passed to the validating
constructor unchanged. -/
def nashFinalize (success : Bool) (message : String) (utilities : List (List ℚ))
    (x_opt : List (List ℚ)) (objVal : ℚ) : Except ModelError AllocationResultQ :=
  mkAllocationResult x_opt (rowDots x_opt utilities) objVal
    (if success then "optimal" else "feasible") none (some message)

/-- Input-validation errors raised before the engine call, shared verbatim by
`solve_maxmin_allocation` (maxmin_solver.py, lines 143-161) and
`solve_nash_allocation` (nash_solver.py, lines 197-215).  The 2-D check of the
sources cannot fail in the embedding because the type is a list of rows. -/
inductive ValidationError where
  | entitlementsShape
  | utilitiesNegative
  | entitlementsNonpositive
  | epsilonNonpositive
deriving DecidableEq

/-- Message strings of the source `raise ValueError(...)` statements (the
entitlements-shape message drops the interpolated shapes). -/
def validationMessage : ValidationError → String
  | .entitlementsShape => "entitlements shape doesn't match n_agents"
  | .utilitiesNegative => "Utilities must be non-negative"
  | .entitlementsNonpositive => "Entitlements must be strictly positive"
  | .epsilonNonpositive => "epsilon must be positive"

/-- Validation prefix of `solve_maxmin_allocation` (maxmin_solver.py, lines
143-161), checks in source order. -/
def maxminValidateInputs (utilities : List (List ℚ)) (entitlements : List ℚ)
    (epsilon : ℚ) : Except ValidationError (Nat × Nat) :=
  if entitlements.length ≠ utilities.length then .error .entitlementsShape
  else if ∃ row ∈ utilities, ∃ v ∈ row, v < 0 then .error .utilitiesNegative
  else if ∃ w ∈ entitlements, w ≤ 0 then .error .entitlementsNonpositive
  else if epsilon ≤ 0 then .error .epsilonNonpositive
  else .ok (utilities.length, nGoods utilities)

/-- Validation prefix of `solve_nash_allocation` (nash_solver.py, lines
197-215); the source duplicates the max-min checks line for line. -/
def nashValidateInputs (utilities : List (List ℚ)) (entitlements : List ℚ)
    (epsilon : ℚ) : Except ValidationError (Nat × Nat) :=
  if entitlements.length ≠ utilities.length then .error .entitlementsShape
  else if ∃ row ∈ utilities, ∃ v ∈ row, v < 0 then .error .utilitiesNegative
  else if ∃ w ∈ entitlements, w ≤ 0 then .error .entitlementsNonpositive
  else if epsilon ≤ 0 then .error .epsilonNonpositive
  else .ok (utilities.length, nGoods utilities)

/-- Both error kinds a solve can raise: `INVALID_INPUT` validation failures
(before the engine runs) and `NUMERIC` constructor failures (after). -/
inductive SolveError where
  | invalidInput (e : ValidationError)
  | numeric (e : ModelError)
deriving DecidableEq

/-- The whole of `solve_maxmin_allocation` with the LP engine abstracted as a
function from the validated shape to a status, a primal point and an objective
value: validation runs first and short-circuits the engine; afterwards the
engine answer is finalized through the validating constructor. -/
def solveMaxminAbstract (engine : Nat × Nat → LpStatus × List (List ℚ) × ℚ)
    (utilities : List (List ℚ)) (entitlements : List ℚ) (epsilon : ℚ) :
    Except SolveError AllocationResultQ :=
  match maxminValidateInputs utilities entitlements epsilon with
  | .error e => .error (.invalidInput e)
  | .ok nm =>
      match maxminFinalize (engine nm).1 utilities (engine nm).2.1 (engine nm).2.2 with
      | .error e => .error (.numeric e)
      | .ok r => .ok r

/-- The whole of `solve_nash_allocation` with the NLP engine abstracted as a
function from the validated shape to a success flag, a message, a point and an
objective value. -/
def solveNashAbstract (engine : Nat × Nat → Bool × String × List (List ℚ) × ℚ)
    (utilities : List (List ℚ)) (entitlements : List ℚ) (epsilon : ℚ) :
    Except SolveError AllocationResultQ :=
  match nashValidateInputs utilities entitlements epsilon with
  | .error e => .error (.invalidInput e)
  | .ok nm =>
      match nashFinalize (engine nm).1 (engine nm).2.1 utilities
          (engine nm).2.2.1 (engine nm).2.2.2 with
      | .error e => .error (.numeric e)
      | .ok r => .ok r

/-- The LP constraint set built by `solve_maxmin_allocation` (maxmin_solver.py,
lines 170-199): box bounds `x[i,j] ∈ [0,1]`, the floor `t ≥ ε`, the agent
constraints `Σ_j u[i,j]·x[i,j] − w_i·t ≥ 0`, and the full-allocation equalities
`Σ_i x[i,j] = 1`.  The engine contract is that a point returned with status
`OPTIMAL` or `FEASIBLE` satisfies all of these.  No restriction constraint
appears anywhere: the function takes no restrictions argument. -/
abbrev maxminLpFeasible {n m : ℕ} (u : Fin n → Fin m → ℚ) (w : Fin n → ℚ)
    (eps : ℚ) (x : Fin n → Fin m → ℚ) (t : ℚ) : Prop :=
  (∀ i j, 0 ≤ x i j ∧ x i j ≤ 1) ∧ eps ≤ t ∧
  (∀ i, 0 ≤ (∑ j, u i j * x i j) - w i * t) ∧
  (∀ j, ∑ i, x i j = 1)

/-- A scipy `linprog` variable bound: a lower bound and an optional upper
bound (`None` meaning unbounded). -/
structure VarBound where
  lo : ℚ
  hi : Option ℚ
deriving DecidableEq

/-- Restriction handling of `MaxMinSolver.solve` (crea maxmin.py, lines
128-134): for each dict entry `((agent_id, good_id), allowed)` with
`allowed = False`, the bound of variable `agents.index(agent_id) * n_goods +
goods.index(good_id)` is set to `(0, 0)`. -/
def creaApplyRestrictions (n_goods : Nat) (agents goods : List Nat)
    (restrictions : List ((Nat × Nat) × Bool)) (bounds : List VarBound) :
    List VarBound :=
  restrictions.foldl
    (fun bs e =>
      if e.2 then bs
      else bs.set (List.indexOf e.1.1 agents * n_goods + List.indexOf e.1.2 goods)
        ⟨0, some 0⟩)
    bounds

/-- Bounds of `MaxMinSolver.solve` (crea maxmin.py, lines 125-134): every one
of the `n_agents * n_goods + 1` variables starts at `(0, None)`, then the
restriction pass overwrites the forbidden pairs. -/
def creaBounds (n_agents n_goods : Nat) (agents goods : List Nat)
    (restrictions : List ((Nat × Nat) × Bool)) : List VarBound :=
  creaApplyRestrictions n_goods agents goods restrictions
    (List.replicate (n_agents * n_goods + 1) ⟨0, none⟩)

/-- A point respects a scipy bounds list when each coordinate lies above its
lower bound and below its upper bound where one is given. -/
def satisfiesBounds (bounds : List VarBound) (x : List ℚ) : Prop :=
  ∀ k, k < bounds.length →
    (bounds.getD k ⟨0, none⟩).lo ≤ x.getD k 0 ∧
    ∀ h, (bounds.getD k ⟨0, none⟩).hi = some h → x.getD k 0 ≤ h

/-- Realized utilities `(allocation * utilities).sum(axis=1)` used throughout
diagnostics.py. -/
def realizedUtility {n m : ℕ} (a u : Fin n → Fin m → ℚ) (i : Fin n) : ℚ :=
  ∑ j, a i j * u i j

/-- Envy matrix built by `_analyze_envy` (diagnostics.py, lines 200-239): zero
diagonal, and `max(0, utilities[i,:]·allocation[k,:] − U_i)` off it. -/
def analyzeEnvyMatrix {n m : ℕ} (a u : Fin n → Fin m → ℚ) (i k : Fin n) : ℚ :=
  if i = k then 0 else max 0 ((∑ j, u i j * a k j) - (∑ j, a i j * u i j))

/-- The free-standing `compute_envy_matrix` (diagnostics.py, lines 339-366),
translated independently of `_analyze_envy`. -/
def compute_envy_matrix {n m : ℕ} (a u : Fin n → Fin m → ℚ) (i k : Fin n) : ℚ :=
  if i = k then 0 else max 0 ((∑ j, u i j * a k j) - (∑ j, a i j * u i j))

/-- The scalar `envy_matrix.max()` of `_analyze_envy` (numpy max over all
entries, defined because there is at least one agent). -/
def maxEnvy {n m : ℕ} (a u : Fin (n + 1) → Fin m → ℚ) : ℚ :=
  Finset.univ.sup' Finset.univ_nonempty
    (fun p : Fin (n + 1) × Fin (n + 1) => analyzeEnvyMatrix a u p.1 p.2)

/-- The flag `is_envy_free = max_envy <= tolerance` of `_analyze_envy`. -/
def isEnvyFree {n m : ℕ} (a u : Fin (n + 1) → Fin m → ℚ) (tol : ℚ) : Prop :=
  maxEnvy a u ≤ tol

/-- The heuristic `_check_pareto_efficiency_heuristic` (diagnostics.py, lines
161-197): report `False` when the column sums fail
`np.allclose(col_sums, 1.0, atol=tolerance)` (numpy default `rtol = 1e-5`
included), or when the scan finds a good `j` held in positive fraction by an
agent `i` valuing it below tolerance while some other agent `k` values it
above tolerance and holds less than full; otherwise report `True`. -/
def check_pareto_efficiency_heuristic {n m : ℕ} (a u : Fin n → Fin m → ℚ)
    (tol : ℚ) : Bool :=
  if ¬ ∀ j, npIsClose (1/10^5) tol (∑ i, a i j) 1 then false
  else if ∃ j, ∃ i, a i j > tol ∧ u i j < tol ∧
      ∃ k, k ≠ i ∧ u k j > tol ∧ a k j < 1 - tol then false
  else true

/-- Proportionality gap of agent `i` computed by `analyze_fairness`
(diagnostics.py, lines 120-123): realized utility minus the entitlement share
of the total realized utility. -/
def proportionalityGap {n m : ℕ} (a u : Fin n → Fin m → ℚ) (w : Fin n → ℚ)
    (i : Fin n) : ℚ :=
  realizedUtility a u i - (w i / ∑ k, w k) * (∑ k, realizedUtility a u k)

/-- The EF1 test `check_ef1` (diagnostics.py, lines 369-426): every pair
either does not envy beyond tolerance, or some single good held by the envied
agent can be zeroed out of the bundle to bring the envy under tolerance. -/
def check_ef1 {n m : ℕ} (a u : Fin n → Fin m → ℚ) (tol : ℚ) : Bool :=
  decide (∀ i k, i ≠ k →
    (∑ j, u i j * a k j) - (∑ j, a i j * u i j) ≤ tol ∨
    ∃ j, a k j > tol ∧
      (∑ j2, u i j2 * (if j2 = j then 0 else a k j2)) - (∑ j2, a i j2 * u i j2) ≤ tol)

/-- The column renormalization `normalize_allocation` (utils.py, lines 46-75):
the source copies the input, and for each column whose sum is off `1.0` by
more than the tolerance either rescales it by the sum (when the sum exceeds
the tolerance) or sets it uniformly to `1/n_agents`; columns already within
tolerance of `1.0` are left untouched. -/
def normalize_allocation {n m : ℕ} (a : Fin n → Fin m → ℚ) (tol : ℚ) :
    Fin n → Fin m → ℚ :=
  fun i j =>
    if |(∑ i2, a i2 j) - 1| > tol then
      (if (∑ i2, a i2 j) > tol then a i j / (∑ i2, a i2 j) else 1 / (n : ℚ))
    else a i j

/-- Modelled from the claim's words, for comparison with the source: every
column whose sum exceeds the tolerance is rescaled by the sum, every other
column is set uniformly to `1/n_agents` (no untouched case). -/
def normalizeAllocationClaim {n m : ℕ} (a : Fin n → Fin m → ℚ) (tol : ℚ) :
    Fin n → Fin m → ℚ :=
  fun i j =>
    if (∑ i2, a i2 j) > tol then a i j / (∑ i2, a i2 j) else 1 / (n : ℚ)

/-! Helper lemmas shared by several claims. -/

theorem npIsClose_one_iff (rtol atol x : ℚ) :
    npIsClose rtol atol x 1 ↔ |x - 1| ≤ atol + rtol := by
  unfold npIsClose
  rw [abs_one, mul_one]

/-- C4 (amended): the `AllocationResult` constructor succeeds iff no entry
lies below `-1e-9`, every column sum is within `1e-6 + 1e-5` of `1.0` (the
tolerance of `np.allclose(col_sums, 1.0, atol=1e-6)` with numpy's default
`rtol = 1e-5`, not the claimed bare `1e-6`), and the utilities vector has
length `n_agents`; it raises exactly on the complementary inputs. -/
theorem allocationResult_postInit_ok_iff (a : List (List ℚ)) (uLen : Nat) :
    allocationResultPostInit a uLen = .ok () ↔
      (∀ row ∈ a, ∀ v ∈ row, -(1/10^9 : ℚ) ≤ v) ∧
      (∀ j ∈ List.range (nGoods a), |colSum a j - 1| ≤ 1/10^6 + 1/10^5) ∧
      uLen = a.length := by
  unfold allocationResultPostInit
  split_ifs with h1 h2 h3
  · simp only [false_iff]
    rintro ⟨hneg, -, -⟩
    obtain ⟨row, hrow, v, hv, hlt⟩ := h1
    exact absurd (hneg row hrow v hv) (not_le.mpr hlt)
  · simp only [false_iff]
    rintro ⟨-, -, hlen⟩
    exact h3 hlen
  · push_neg at h1
    constructor
    · intro _
      exact ⟨h1, fun j hj => (npIsClose_one_iff _ _ _).mp (h2 j hj),
             not_ne_iff.mp h3⟩
    · intro _; rfl
  · simp only [false_iff]
    rintro ⟨-, hcols, -⟩
    exact h2 (fun j hj => (npIsClose_one_iff _ _ _).mpr (hcols j hj))

/-- C4 counterexample: the allocation `[[1 + 5e-6]]` has its single column sum
off `1.0` by `5e-6 > 1e-6`, so by the claim the constructor must raise; in the
source the `np.allclose` check (atol `1e-6` plus numpy's default rtol `1e-5`)
accepts it and construction succeeds. -/
theorem allocationResult_postInit_tolerance_cex :
    allocationResultPostInit [[1 + 5/10^6]] 1 = .ok () ∧
    ¬ (|(1 + 5/10^6 : ℚ) - 1| ≤ 1/10^6) := by
  constructor
  · rw [allocationResultPostInit, if_neg, if_neg, if_neg]
    · norm_num
    · norm_num [nGoods, colSum, npIsClose, List.range_succ, abs_of_nonneg]
    · norm_num
  · norm_num [abs_of_nonneg]

/-- C1: at the failing input `utilities = [[0]]`, `entitlements = [1]` the LP
is infeasible (the agent constraint forces `t ≤ 0`, incompatible with
`t ≥ ε`), so the engine reports a status other than OPTIMAL/FEASIBLE and the
source builds the all-zeros `infeasible` result; but
`AllocationResult.__post_init__` checks column sums unconditionally — there is
no suppression for the infeasible status — so the zero column sum fails the
goods-fully-allocated check and the call raises instead of returning the
tagged result the claim (and the spec) describe. -/
theorem maxmin_infeasible_branch_raises :
    solveMaxminAbstract (fun _ => (.lpOther, [], 0)) [[0]] [1] (1/10^6) =
      .error (.numeric .goodsNotFullyAllocated) := by
  have hval : maxminValidateInputs [[0]] [1] (1/10^6) = .ok (1, 1) := by
    rw [maxminValidateInputs, if_neg, if_neg, if_neg, if_neg]
    · rfl
    · norm_num
    · norm_num
    · norm_num
    · norm_num
  have hpost : allocationResultPostInit [[(0:ℚ)]] 1 =
      .error .goodsNotFullyAllocated := by
    rw [allocationResultPostInit, if_neg, if_pos]
    · norm_num [nGoods, colSum, npIsClose, List.range_succ]
    · norm_num
  simp only [solveMaxminAbstract, hval, maxminFinalize, mkAllocationResult,
    nGoods, List.headD, List.length, List.replicate, hpost, Except.map]

/-- C2 counterexample: the NLP engine reports failure and returns the point
`[[1/2]]` (column sum `1/2`, far outside any feasibility tolerance).  The
claim requires a `SOLVER_FAILED` error carrying the engine's own message;
instead the source raises the constructor's goods-fully-allocated invariant
error, which is identical for two different engine messages — the error does
not carry the engine message at all, and no solver-failure error kind exists
on this path. -/
theorem nash_failure_no_solver_failed_cex :
    solveNashAbstract (fun _ => (false, "engine message A", [[1/2]], 0))
        [[10]] [1] (1/10^6) = .error (.numeric .goodsNotFullyAllocated) ∧
    solveNashAbstract (fun _ => (false, "engine message B", [[1/2]], 0))
        [[10]] [1] (1/10^6) = .error (.numeric .goodsNotFullyAllocated) := by
  have hval : nashValidateInputs [[10]] [1] (1/10^6) = .ok (1, 1) := by
    rw [nashValidateInputs, if_neg, if_neg, if_neg, if_neg]
    · rfl
    · norm_num
    · norm_num
    · norm_num
    · norm_num
  have hpost : allocationResultPostInit [[(1:ℚ)/2]] 1 =
      .error .goodsNotFullyAllocated := by
    rw [allocationResultPostInit, if_neg, if_pos]
    · norm_num [nGoods, colSum, npIsClose, List.range_succ]
      rw [abs_of_nonneg (by norm_num : (0:ℚ) ≤ 1/2)]
      norm_num
    · norm_num
  constructor <;>
    simp only [solveNashAbstract, hval, nashFinalize, mkAllocationResult,
      rowDots, List.zipWith, List.length_singleton, hpost, Except.map]

/-- C2 (amended): when the NLP engine reports failure, no `SOLVER_FAILED`
error is ever raised: if the returned point passes the `AllocationResult`
construction invariants the call returns normally with
`solver_status = "feasible"` (regardless of how infeasible or suboptimal the
engine run was), and otherwise the constructor's invariant `ValueError` is
raised, which does not carry the engine message. -/
theorem nash_failed_run_returns_feasible (message : String)
    (utilities x : List (List ℚ)) (entitlements : List ℚ) (epsilon objVal : ℚ)
    (hval : ∃ nm, nashValidateInputs utilities entitlements epsilon = .ok nm)
    (hpost : allocationResultPostInit x (rowDots x utilities).length = .ok ()) :
    ∃ r, solveNashAbstract (fun _ => (false, message, x, objVal))
        utilities entitlements epsilon = .ok r ∧
      r.solver_status = "feasible" := by
  obtain ⟨nm, hnm⟩ := hval
  refine ⟨⟨x, rowDots x utilities, objVal, "feasible", none, some message⟩, ?_, rfl⟩
  simp only [solveNashAbstract, hnm, nashFinalize, mkAllocationResult, hpost,
    Except.map, Bool.false_eq_true, if_false]

/-- Witness for the amended C2 theorem: the concrete failed run with the
feasible point `[[1]]` on the one-agent one-good instance returns normally
with status `"feasible"`. -/
theorem nash_failed_run_returns_feasible_witness :
    (∃ nm, nashValidateInputs [[10]] [1] (1/10^6) = .ok nm) ∧
    allocationResultPostInit [[(1:ℚ)]] (rowDots [[(1:ℚ)]] [[10]]).length = .ok () ∧
    ∃ r, solveNashAbstract (fun _ => (false, "maxiter reached", [[1]], 0))
        [[10]] [1] (1/10^6) = .ok r ∧ r.solver_status = "feasible" := by
  have hval : nashValidateInputs [[10]] [1] (1/10^6) = .ok (1, 1) := by
    rw [nashValidateInputs, if_neg, if_neg, if_neg, if_neg]
    · rfl
    · norm_num
    · norm_num
    · norm_num
    · norm_num
  have hpost : allocationResultPostInit [[(1:ℚ)]] (rowDots [[(1:ℚ)]] [[10]]).length
      = .ok () := by
    rw [allocationResultPostInit, if_neg, if_neg, if_neg]
    · norm_num [rowDots]
    · norm_num [nGoods, colSum, npIsClose, List.range_succ, abs_of_nonneg]
    · norm_num
  exact ⟨⟨(1, 1), hval⟩, hpost,
    nash_failed_run_returns_feasible "maxiter reached" [[10]] [[1]] [1]
      (1/10^6) 0 ⟨(1, 1), hval⟩ hpost⟩

/-- C5: any utilities matrix with a negative entry is rejected by both
solvers with the `INVALID_INPUT` error whose message is exactly
"Utilities must be non-negative", for every entitlements vector of matching
shape, every epsilon, and every behavior of either engine — the error is
raised before any engine call, which is why the result is independent of the
engine functions. -/
theorem negative_utilities_rejected
    (utilities : List (List ℚ)) (entitlements : List ℚ) (epsM epsN : ℚ)
    (engineM : Nat × Nat → LpStatus × List (List ℚ) × ℚ)
    (engineN : Nat × Nat → Bool × String × List (List ℚ) × ℚ)
    (hshape : entitlements.length = utilities.length)
    (hneg : ∃ row ∈ utilities, ∃ v ∈ row, v < 0) :
    solveMaxminAbstract engineM utilities entitlements epsM =
        .error (.invalidInput .utilitiesNegative) ∧
    solveNashAbstract engineN utilities entitlements epsN =
        .error (.invalidInput .utilitiesNegative) ∧
    validationMessage .utilitiesNegative = "Utilities must be non-negative" := by
  have hM : maxminValidateInputs utilities entitlements epsM =
      .error .utilitiesNegative := by
    rw [maxminValidateInputs, if_neg (not_ne_iff.mpr hshape), if_pos hneg]
  have hN : nashValidateInputs utilities entitlements epsN =
      .error .utilitiesNegative := by
    rw [nashValidateInputs, if_neg (not_ne_iff.mpr hshape), if_pos hneg]
  exact ⟨by simp only [solveMaxminAbstract, hM],
         by simp only [solveNashAbstract, hN], rfl⟩

/-- Witness for the C5 theorem: the spec's seed scenario
`U = [[10,-5],[5,10]]`, `w = [1,1]` is rejected by both solvers (with
arbitrarily chosen engine behaviors, which are never consulted). -/
theorem negative_utilities_rejected_witness :
    ([(1:ℚ), 1].length = [[(10:ℚ), -5], [5, 10]].length) ∧
    (∃ row ∈ [[(10:ℚ), -5], [5, 10]], ∃ v ∈ row, v < 0) ∧
    solveMaxminAbstract (fun _ => (.lpOptimal, [], 0)) [[10, -5], [5, 10]]
        [1, 1] (1/10^6) = .error (.invalidInput .utilitiesNegative) ∧
    solveNashAbstract (fun _ => (true, "ok", [], 0)) [[10, -5], [5, 10]]
        [1, 1] (1/10^6) = .error (.invalidInput .utilitiesNegative) ∧
    validationMessage .utilitiesNegative = "Utilities must be non-negative" := by
  have hshape : [(1:ℚ), 1].length = [[(10:ℚ), -5], [5, 10]].length := rfl
  have hneg : ∃ row ∈ [[(10:ℚ), -5], [5, 10]], ∃ v ∈ row, v < 0 := by norm_num
  obtain ⟨h1, h2, h3⟩ := negative_utilities_rejected [[10, -5], [5, 10]] [1, 1]
    (1/10^6) (1/10^6) (fun _ => (.lpOptimal, [], 0)) (fun _ => (true, "ok", [], 0))
    hshape hneg
  exact ⟨hshape, hneg, h1, h2, h3⟩

/-- C6: the envy matrix of `_analyze_envy` has entry
`max(0, utilities[i,:]·allocation[k,:] − U_i)` at every off-diagonal place,
zero diagonal, `max_envy` is the maximum entry of the matrix, `is_envy_free`
holds exactly when `max_envy ≤ tolerance`, and the free-standing
`compute_envy_matrix` produces the same matrix. -/
theorem envy_matrix_properties (n m : ℕ) (a u : Fin (n + 1) → Fin m → ℚ)
    (tol : ℚ) :
    (∀ i k, i ≠ k → analyzeEnvyMatrix a u i k =
        max 0 ((∑ j, u i j * a k j) - realizedUtility a u i)) ∧
    (∀ i, analyzeEnvyMatrix a u i i = 0) ∧
    (∀ i k, analyzeEnvyMatrix a u i k ≤ maxEnvy a u) ∧
    (∃ i k, analyzeEnvyMatrix a u i k = maxEnvy a u) ∧
    (isEnvyFree a u tol ↔ maxEnvy a u ≤ tol) ∧
    (∀ i k, compute_envy_matrix a u i k = analyzeEnvyMatrix a u i k) := by
  refine ⟨fun i k hik => ?_, fun i => ?_, fun i k => ?_, ?_, Iff.rfl,
    fun i k => rfl⟩
  · rw [analyzeEnvyMatrix, if_neg hik]
    rfl
  · rw [analyzeEnvyMatrix, if_pos rfl]
  · exact Finset.le_sup' (fun p : Fin (n + 1) × Fin (n + 1) =>
      analyzeEnvyMatrix a u p.1 p.2) (Finset.mem_univ (i, k))
  · obtain ⟨p, -, hp⟩ := Finset.exists_mem_eq_sup' Finset.univ_nonempty
      (fun p : Fin (n + 1) × Fin (n + 1) => analyzeEnvyMatrix a u p.1 p.2)
    exact ⟨p.1, p.2, hp.symm⟩

/-- C7: whenever the Pareto heuristic reports inefficiency on an allocation
whose column sums are all within `tolerance` of `1`, a witness triple
`(i, k, j)` with the claimed four properties exists — the heuristic cannot
claim inefficiency without one, because with the column check passing the
only remaining `False` exit is the witness scan. -/
theorem pareto_heuristic_exhibits_witness (n m : ℕ) (a u : Fin n → Fin m → ℚ)
    (tol : ℚ) (hcols : ∀ j, |(∑ i, a i j) - 1| ≤ tol)
    (hfalse : check_pareto_efficiency_heuristic a u tol = false) :
    ∃ i k j, k ≠ i ∧ a i j > tol ∧ u i j ≤ tol ∧ u k j > tol ∧
      a k j < 1 - tol := by
  have hclose : ∀ j, npIsClose (1/10^5) tol (∑ i, a i j) 1 := by
    intro j
    unfold npIsClose
    rw [abs_one, mul_one]
    have h5 : (0:ℚ) ≤ 1/10^5 := by norm_num
    linarith [hcols j]
  rw [check_pareto_efficiency_heuristic, if_neg (not_not.mpr hclose)] at hfalse
  by_cases hex : ∃ j, ∃ i, a i j > tol ∧ u i j < tol ∧
      ∃ k, k ≠ i ∧ u k j > tol ∧ a k j < 1 - tol
  · obtain ⟨j, i, h1, h2, k, hk, h3, h4⟩ := hex
    exact ⟨i, k, j, hk, h1, le_of_lt h2, h3, h4⟩
  · rw [if_neg hex] at hfalse
    exact absurd hfalse (by simp)

/-- Witness for the C7 theorem: on the hand-built instance where agent 0
holds all of good 1 while valuing it at 0 and agent 1 values it positively
and holds none of it, the heuristic reports inefficiency and the triple
exists. -/
theorem pareto_heuristic_exhibits_witness_witness :
    (∀ j, |(∑ i, (![![1, 1], ![0, 0]] : Fin 2 → Fin 2 → ℚ) i j) - 1| ≤ 1/10^6) ∧
    check_pareto_efficiency_heuristic (![![1, 1], ![0, 0]] : Fin 2 → Fin 2 → ℚ)
      (![![1, 0], ![0, 1]] : Fin 2 → Fin 2 → ℚ) (1/10^6) = false ∧
    ∃ i k j, k ≠ i ∧ (![![1, 1], ![0, 0]] : Fin 2 → Fin 2 → ℚ) i j > 1/10^6 ∧
      (![![1, 0], ![0, 1]] : Fin 2 → Fin 2 → ℚ) i j ≤ 1/10^6 ∧
      (![![1, 0], ![0, 1]] : Fin 2 → Fin 2 → ℚ) k j > 1/10^6 ∧
      (![![1, 1], ![0, 0]] : Fin 2 → Fin 2 → ℚ) k j < 1 - 1/10^6 := by
  have hcols : ∀ j, |(∑ i, (![![1, 1], ![0, 0]] : Fin 2 → Fin 2 → ℚ) i j) - 1|
      ≤ 1/10^6 := by
    intro j
    fin_cases j <;> norm_num [Fin.sum_univ_two]
  have hfalse : check_pareto_efficiency_heuristic
      (![![1, 1], ![0, 0]] : Fin 2 → Fin 2 → ℚ)
      (![![1, 0], ![0, 1]] : Fin 2 → Fin 2 → ℚ) (1/10^6) = false := by
    rw [check_pareto_efficiency_heuristic, if_neg, if_pos]
    · refine ⟨1, 0, by norm_num, by norm_num, 1, by norm_num, by norm_num,
        by norm_num⟩
    · rw [not_not]
      intro j
      unfold npIsClose
      rw [abs_one, mul_one]
      have := hcols j
      have h5 : (0:ℚ) ≤ 1/10^5 := by norm_num
      linarith
  exact ⟨hcols, hfalse,
    pareto_heuristic_exhibits_witness 2 2 _ _ (1/10^6) hcols hfalse⟩

/-- C8: the proportionality gaps computed by `analyze_fairness` sum to zero
(hence to zero within `1e-9`) over all agents, whenever the entitlements do
not sum to zero (the data model requires them strictly positive; a zero sum
would divide by zero in the source). -/
theorem proportionality_gaps_sum_zero (n m : ℕ) (a u : Fin n → Fin m → ℚ)
    (w : Fin n → ℚ) (hw : (∑ k, w k) ≠ 0) :
    |∑ i, proportionalityGap a u w i| ≤ 1/10^9 := by
  have hzero : ∑ i, proportionalityGap a u w i = 0 := by
    unfold proportionalityGap
    rw [Finset.sum_sub_distrib, ← Finset.sum_mul, ← Finset.sum_div,
      div_self hw, one_mul, sub_self]
  rw [hzero]
  norm_num

/-- Witness for the C8 theorem at a concrete one-agent instance. -/
theorem proportionality_gaps_sum_zero_witness :
    ((∑ k, (![1] : Fin 1 → ℚ) k) ≠ 0) ∧
    |∑ i, proportionalityGap (![![1]] : Fin 1 → Fin 1 → ℚ)
        (![![2]] : Fin 1 → Fin 1 → ℚ) (![1] : Fin 1 → ℚ) i| ≤ 1/10^9 := by
  have hw : (∑ k, (![1] : Fin 1 → ℚ) k) ≠ 0 := by
    rw [Fin.sum_univ_one]
    norm_num
  exact ⟨hw, proportionality_gaps_sum_zero 1 1 _ _ _ hw⟩

/-- C9: `check_ef1` returns `true` on every envy-free allocation, i.e.
whenever no pair `(i, k)` with `i ≠ k` values `k`'s bundle more than
`tolerance` above its own realized utility: every pair then exits through
the no-envy branch and the scan never returns `false`. -/
theorem check_ef1_true_of_envy_free (n m : ℕ) (a u : Fin n → Fin m → ℚ)
    (tol : ℚ)
    (hef : ∀ i k, i ≠ k → (∑ j, u i j * a k j) - (∑ j, a i j * u i j) ≤ tol) :
    check_ef1 a u tol = true := by
  rw [check_ef1, decide_eq_true_eq]
  intro i k hik
  exact Or.inl (hef i k hik)

/-- Witness for the C9 theorem: the diagonal allocation of the
`U = [[5,1],[1,5]]` instance is envy-free and `check_ef1` accepts it. -/
theorem check_ef1_true_of_envy_free_witness :
    (∀ i k, i ≠ k →
      (∑ j, (![![5, 1], ![1, 5]] : Fin 2 → Fin 2 → ℚ) i j *
          (![![1, 0], ![0, 1]] : Fin 2 → Fin 2 → ℚ) k j) -
        (∑ j, (![![1, 0], ![0, 1]] : Fin 2 → Fin 2 → ℚ) i j *
          (![![5, 1], ![1, 5]] : Fin 2 → Fin 2 → ℚ) i j) ≤ 1/10^6) ∧
    check_ef1 (![![1, 0], ![0, 1]] : Fin 2 → Fin 2 → ℚ)
      (![![5, 1], ![1, 5]] : Fin 2 → Fin 2 → ℚ) (1/10^6) = true := by
  have hef : ∀ i k, i ≠ k →
      (∑ j, (![![5, 1], ![1, 5]] : Fin 2 → Fin 2 → ℚ) i j *
          (![![1, 0], ![0, 1]] : Fin 2 → Fin 2 → ℚ) k j) -
        (∑ j, (![![1, 0], ![0, 1]] : Fin 2 → Fin 2 → ℚ) i j *
          (![![5, 1], ![1, 5]] : Fin 2 → Fin 2 → ℚ) i j) ≤ 1/10^6 := by
    intro i k hik
    fin_cases i <;> fin_cases k <;>
      first
        | exact absurd rfl hik
        | norm_num [Fin.sum_univ_two]
  exact ⟨hef, check_ef1_true_of_envy_free 2 2 _ _ (1/10^6) hef⟩

/-- C10 counterexample: a column whose sum `1 + 0.5e-9` exceeds the
tolerance but is already within `1e-9` of `1` is left untouched by the
source (the outer `|sum - 1| > tolerance` guard fails), whereas the claim's
description rescales it by the sum to land exactly on `1`; the two outputs
differ at the concrete entry. -/
theorem normalize_allocation_untouched_column_cex :
    normalize_allocation (![![1 + 1/(2 * 10^9)]] : Fin 1 → Fin 1 → ℚ)
        (1/10^9) 0 0 = 1 + 1/(2 * 10^9) ∧
    normalizeAllocationClaim (![![1 + 1/(2 * 10^9)]] : Fin 1 → Fin 1 → ℚ)
        (1/10^9) 0 0 = 1 ∧
    (1 + 1/(2 * 10^9) : ℚ) ≠ 1 := by
  refine ⟨?_, ?_, by norm_num⟩
  · rw [normalize_allocation, if_neg]
    · norm_num
    · rw [Fin.sum_univ_one]
      norm_num [abs_of_nonneg]
  · rw [normalizeAllocationClaim, if_pos]
    · rw [Fin.sum_univ_one]
      norm_num
    · rw [Fin.sum_univ_one]
      norm_num

/-- C10 (amended): for a nonnegative allocation with at least one agent,
`normalize_allocation` (at its default tolerance `1e-9`) returns a matrix
whose every column sums to `1` within `1e-9`; a column is adjusted only when
its sum is off `1` by more than the tolerance (then rescaled by the sum when
the sum exceeds the tolerance, else set uniformly to `1/n_agents`), and a
column already within tolerance of `1` is returned unchanged.  The input is
not modified: the source operates on a `.copy()`, which the pure embedding
reflects. -/
theorem normalize_allocation_columns_sum_one (n m : ℕ)
    (a : Fin (n + 1) → Fin m → ℚ) (hpos : ∀ i j, 0 ≤ a i j) :
    (∀ j, |(∑ i, normalize_allocation a (1/10^9) i j) - 1| ≤ 1/10^9) ∧
    (∀ j, |(∑ i, a i j) - 1| ≤ (1/10^9 : ℚ) →
      ∀ i, normalize_allocation a (1/10^9) i j = a i j) := by
  constructor
  · intro j
    by_cases h1 : |(∑ i, a i j) - 1| > (1/10^9 : ℚ)
    · by_cases h2 : (∑ i, a i j) > (1/10^9 : ℚ)
      · have hs : (∑ i, a i j) ≠ 0 := by
          have : (0:ℚ) < 1/10^9 := by norm_num
          exact ne_of_gt (lt_trans this h2)
        have heach : ∀ i, normalize_allocation a (1/10^9) i j =
            a i j / (∑ i2, a i2 j) := by
          intro i
          rw [normalize_allocation, if_pos h1, if_pos h2]
        rw [Finset.sum_congr rfl (fun i _ => heach i), ← Finset.sum_div,
          div_self hs]
        norm_num
      · have heach : ∀ i, normalize_allocation a (1/10^9) i j =
            1 / ((n : ℚ) + 1) := by
          intro i
          rw [normalize_allocation, if_pos h1, if_neg h2]
          push_cast
          ring
        have hcard : ((n : ℚ) + 1) ≠ 0 := by positivity
        rw [Finset.sum_congr rfl (fun i _ => heach i), Finset.sum_const,
          Finset.card_univ, Fintype.card_fin, nsmul_eq_mul]
        push_cast
        rw [mul_one_div, div_self hcard]
        norm_num
    · have heach : ∀ i, normalize_allocation a (1/10^9) i j = a i j := by
        intro i
        rw [normalize_allocation, if_neg h1]
      rw [Finset.sum_congr rfl (fun i _ => heach i)]
      exact not_lt.mp h1
  · intro j hj i
    rw [normalize_allocation, if_neg (not_lt.mpr hj)]

/-- Witness for the amended C10 theorem on a concrete nonnegative 2×2
allocation with one overfull and one empty column. -/
theorem normalize_allocation_columns_sum_one_witness :
    (∀ i j, 0 ≤ (![![2, 0], ![2, 0]] : Fin 2 → Fin 2 → ℚ) i j) ∧
    (∀ j, |(∑ i, normalize_allocation (![![2, 0], ![2, 0]] : Fin 2 → Fin 2 → ℚ)
        (1/10^9) i j) - 1| ≤ 1/10^9) := by
  have hpos : ∀ i j, 0 ≤ (![![2, 0], ![2, 0]] : Fin 2 → Fin 2 → ℚ) i j := by
    intro i j
    fin_cases i <;> fin_cases j <;> norm_num
  exact ⟨hpos,
    (normalize_allocation_columns_sum_one 1 2 (![![2, 0], ![2, 0]]) hpos).1⟩

/-- C3 counterexample: `solve_maxmin_allocation` takes no restrictions
argument, so for the one-agent one-good instance `U = [[1]]`, `w = [1]` with
the mask forbidding the only pair `(0,0)`, nothing in its LP constrains
`x[0,0]`: the full-allocation equality forces `x[0,0] = 1` at every feasible
point, the point `x = [[1]], t = 1` is feasible (hence returnable with
status optimal), and `1` is not `≤ 1e-6` — the claimed bound on restricted
pairs fails. -/
theorem maxmin_restrictions_not_in_lp_cex :
    (∀ (x : Fin 1 → Fin 1 → ℚ) (t : ℚ),
      maxminLpFeasible (![![1]] : Fin 1 → Fin 1 → ℚ) (![1] : Fin 1 → ℚ)
        (1/10^6) x t → x 0 0 = 1) ∧
    maxminLpFeasible (![![1]] : Fin 1 → Fin 1 → ℚ) (![1] : Fin 1 → ℚ)
      (1/10^6) (![![1]] : Fin 1 → Fin 1 → ℚ) 1 ∧
    ¬ ((1 : ℚ) ≤ 1/10^6) := by
  refine ⟨fun x t h => ?_, ?_, by norm_num⟩
  · have hgood := h.2.2.2 0
    rwa [Fin.sum_univ_one] at hgood
  · refine ⟨fun i j => ?_, by norm_num, fun i => ?_, fun j => ?_⟩
    · fin_cases i <;> fin_cases j <;> norm_num
    · fin_cases i
      rw [Fin.sum_univ_one]
      norm_num
    · fin_cases j
      rw [Fin.sum_univ_one]
      norm_num

theorem creaApplyRestrictions_cons (n_goods : Nat) (agents goods : List Nat)
    (e : (Nat × Nat) × Bool) (rest : List ((Nat × Nat) × Bool))
    (bounds : List VarBound) :
    creaApplyRestrictions n_goods agents goods (e :: rest) bounds =
      creaApplyRestrictions n_goods agents goods rest
        (if e.2 then bounds
         else bounds.set
           (List.indexOf e.1.1 agents * n_goods + List.indexOf e.1.2 goods)
           ⟨0, some 0⟩) := rfl

theorem creaApplyRestrictions_length (n_goods : Nat) (agents goods : List Nat)
    (restrictions : List ((Nat × Nat) × Bool)) (bounds : List VarBound) :
    (creaApplyRestrictions n_goods agents goods restrictions bounds).length =
      bounds.length := by
  induction restrictions generalizing bounds with
  | nil => rfl
  | cons e rest ih =>
      rw [creaApplyRestrictions_cons, ih]
      by_cases he : e.2 = true
      · rw [if_pos he]
      · rw [if_neg he, List.length_set]

theorem creaApplyRestrictions_preserve (n_goods : Nat) (agents goods : List Nat)
    (restrictions : List ((Nat × Nat) × Bool)) (bounds : List VarBound)
    (idx : Nat) (h : bounds.getD idx ⟨0, none⟩ = ⟨0, some 0⟩) :
    (creaApplyRestrictions n_goods agents goods restrictions bounds).getD idx
      ⟨0, none⟩ = ⟨0, some 0⟩ := by
  induction restrictions generalizing bounds with
  | nil => exact h
  | cons e rest ih =>
      rw [creaApplyRestrictions_cons]
      apply ih
      by_cases he : e.2 = true
      · rw [if_pos he]
        exact h
      · rw [if_neg he]
        by_cases heq :
            List.indexOf e.1.1 agents * n_goods + List.indexOf e.1.2 goods = idx
        · have hlt : idx < bounds.length := by
            by_contra hge
            rw [List.getD_eq_default _ _ (le_of_not_lt hge)] at h
            exact absurd h (by simp)
          rw [← heq] at hlt ⊢
          rw [List.getD_eq_getElem?_getD, List.getElem?_set_eq_of_lt _ hlt]
          rfl
        · rw [List.getD_eq_getElem?_getD, List.getElem?_set_ne heq,
            ← List.getD_eq_getElem?_getD]
          exact h

theorem creaApplyRestrictions_sets (n_goods : Nat) (agents goods : List Nat)
    (restrictions : List ((Nat × Nat) × Bool)) (bounds : List VarBound)
    (aid gid : Nat) (hmem : ((aid, gid), false) ∈ restrictions)
    (hlt : List.indexOf aid agents * n_goods + List.indexOf gid goods <
      bounds.length) :
    (creaApplyRestrictions n_goods agents goods restrictions bounds).getD
      (List.indexOf aid agents * n_goods + List.indexOf gid goods) ⟨0, none⟩ =
      ⟨0, some 0⟩ := by
  induction restrictions generalizing bounds with
  | nil => cases hmem
  | cons e rest ih =>
      rw [creaApplyRestrictions_cons]
      rcases List.mem_cons.mp hmem with heq | hmem'
      · rw [← heq]
        simp only [Bool.false_eq_true, if_false]
        apply creaApplyRestrictions_preserve
        rw [List.getD_eq_getElem?_getD, List.getElem?_set_eq_of_lt _ hlt]
        rfl
      · refine ih _ hmem' ?_
        by_cases he : e.2 = true
        · rwa [if_pos he]
        · rw [if_neg he, List.length_set]
          exact hlt

/-- C3 (amended): `solve_maxmin_allocation` itself accepts no restrictions
mask (see the counterexample); the restriction handling the spec describes
lives in `MaxMinSolver.solve` of the platform backend, which for every
forbidden `(agent_id, good_id)` pair sets the scipy bound of variable
`agents.index(agent_id)·n_goods + goods.index(good_id)` to `(0, 0)` — so
every point the engine returns within its bounds has that coordinate equal
to `0`, in particular `≤ 1e-6`. -/
theorem crea_restricted_pair_forced_zero (n_agents n_goods : Nat)
    (agents goods : List Nat) (restrictions : List ((Nat × Nat) × Bool))
    (aid gid : Nat) (ha : agents.length = n_agents) (hg : goods.length = n_goods)
    (hmema : aid ∈ agents) (hmemg : gid ∈ goods)
    (hres : ((aid, gid), false) ∈ restrictions) :
    (creaBounds n_agents n_goods agents goods restrictions).getD
        (List.indexOf aid agents * n_goods + List.indexOf gid goods) ⟨0, none⟩ =
      ⟨0, some 0⟩ ∧
    ∀ x, satisfiesBounds (creaBounds n_agents n_goods agents goods restrictions) x →
      x.getD (List.indexOf aid agents * n_goods + List.indexOf gid goods) 0 ≤
        1/10^6 := by
  have hi : List.indexOf aid agents < n_agents :=
    ha ▸ List.indexOf_lt_length.mpr hmema
  have hj : List.indexOf gid goods < n_goods :=
    hg ▸ List.indexOf_lt_length.mpr hmemg
  have hidx : List.indexOf aid agents * n_goods + List.indexOf gid goods <
      n_agents * n_goods + 1 := by
    have h1 : List.indexOf aid agents * n_goods + List.indexOf gid goods <
        (List.indexOf aid agents + 1) * n_goods := by
      rw [Nat.succ_mul]
      omega
    have h2 : (List.indexOf aid agents + 1) * n_goods ≤ n_agents * n_goods :=
      Nat.mul_le_mul_right _ hi
    omega
  have hset : (creaBounds n_agents n_goods agents goods restrictions).getD
      (List.indexOf aid agents * n_goods + List.indexOf gid goods) ⟨0, none⟩ =
      ⟨0, some 0⟩ := by
    apply creaApplyRestrictions_sets _ _ _ _ _ _ _ hres
    rw [List.length_replicate]
    exact hidx
  refine ⟨hset, fun x hx => ?_⟩
  have hlen : (creaBounds n_agents n_goods agents goods restrictions).length =
      n_agents * n_goods + 1 := by
    rw [creaBounds, creaApplyRestrictions_length, List.length_replicate]
  obtain ⟨-, hhi⟩ := hx
    (List.indexOf aid agents * n_goods + List.indexOf gid goods)
    (by rw [hlen]; exact hidx)
  have hle : x.getD (List.indexOf aid agents * n_goods +
      List.indexOf gid goods) 0 ≤ 0 := by
    apply hhi
    rw [hset]
  exact le_trans hle (by norm_num)

/-- Witness for the amended C3 theorem: one agent `0`, one good `0`, the
mask forbidding the pair; the bound of the pair's variable is `(0, 0)` and
every in-bounds point gives the pair at most `1e-6`. -/
theorem crea_restricted_pair_forced_zero_witness :
    ([0].length = 1) ∧ ((0:Nat) ∈ [0]) ∧ (((0, 0), false) ∈ [((0, 0), false)]) ∧
    (creaBounds 1 1 [0] [0] [((0, 0), false)]).getD
        (List.indexOf 0 [0] * 1 + List.indexOf 0 [0]) ⟨0, none⟩ = ⟨0, some 0⟩ ∧
    ∀ x, satisfiesBounds (creaBounds 1 1 [0] [0] [((0, 0), false)]) x →
      x.getD (List.indexOf 0 [0] * 1 + List.indexOf 0 [0]) 0 ≤ 1/10^6 := by
  have hmem : (0:Nat) ∈ [0] := List.mem_singleton.mpr rfl
  have hres : (((0:Nat), (0:Nat)), false) ∈ [((0, 0), false)] :=
    List.mem_singleton.mpr rfl
  obtain ⟨h1, h2⟩ := crea_restricted_pair_forced_zero 1 1 [0] [0]
    [((0, 0), false)] 0 0 rfl rfl hmem hmem hres
  exact ⟨rfl, hmem, hres, h1, h2⟩
